import Mathlib

/-
Verification development for the FireExtinguisherRobot vision pipeline
(src/main.cpp, src/vision_processing.cpp, src/utils.h).

Modelling conventions:
* C++ `float`/`double` values are embedded as exact rationals (ℚ); the
  formulas of the source are straight-line rational arithmetic, and the
  one numeric scenario checked below carries an explicit ±0.01 tolerance
  that absorbs the idealisation.
* `FLT_MAX` (the sentinel of calculateRealWorldDistance) is the exact
  value of the largest finite IEEE-754 single, 2^128 − 2^104.
* cv::Point2f is a pair of rationals, cv::Point3f is the `Point3`
  structure below.
* The square root in calculateRealWorldDistance is real-valued, so that
  function is embedded with values in ℝ; the only way the pipeline uses
  it is the comparison `calculateRealWorldDistance p q < maxDist`, which
  is embedded by the executable Boolean `distanceLtB` and proved
  equivalent to the real-valued comparison (`distanceLtB_iff`).
-/

namespace FireRobot

/-- Embedding of cv::Point3f (coordinates idealised as rationals). -/
structure Point3 where
  x : ℚ
  y : ℚ
  z : ℚ
deriving DecidableEq, Repr

/-- Largest finite IEEE-754 single-precision value (2^128 − 2^104,
written as an explicit numeral), the FLT_MAX sentinel returned by
calculateRealWorldDistance for broken projections. -/
def fltMax : ℚ := 340282346638528859811704183484516925440

/-- Embedding of the camera intrinsic matrix as used by the source:
pixelToApproxWorld reads entries (0,0)=fx, (1,1)=fy, (0,2)=cx, (1,2)=cy.
An empty cv::Mat is embedded as `none` at use sites. -/
structure CamIntrinsics where
  fx : ℚ
  fy : ℚ
  cx : ℚ
  cy : ℚ
deriving DecidableEq, Repr

/-- Embedding of pixelToApproxWorld (src/main.cpp).  The C++ guard is
`cam_matrix.empty() || cam_matrix.at<double>(0, 0) == 0`; note that it
does NOT test fy.  Division is total rational division (x / 0 = 0 in ℚ),
whereas the C++ double division by a zero fy would produce a non-finite
value; the claims below only concern the branch taken and the z
component, which involves no division. -/
def pixelToApproxWorld (pixelCoord : ℚ × ℚ) (camMatrix : Option CamIntrinsics)
    (distanceToPlane : ℚ) : Point3 :=
  match camMatrix with
  | none => ⟨pixelCoord.1, pixelCoord.2, 0⟩
  | some m =>
    if m.fx = 0 then ⟨pixelCoord.1, pixelCoord.2, 0⟩
    else
      ⟨(pixelCoord.1 - m.cx) * distanceToPlane / m.fx,
       (pixelCoord.2 - m.cy) * distanceToPlane / m.fy,
       distanceToPlane⟩

/-- Embedding of calculateRealWorldDistance (src/main.cpp): Euclidean
distance of two 3D points, with the FLT_MAX sentinel when either point
has z = 0. -/
noncomputable def calculateRealWorldDistance (p1 p2 : Point3) : ℝ :=
  if p1.z = 0 ∨ p2.z = 0 then (fltMax : ℝ)
  else Real.sqrt (((p1.x - p2.x) ^ 2 + (p1.y - p2.y) ^ 2 + (p1.z - p2.z) ^ 2 : ℚ) : ℝ)

/-- Executable embedding of the comparison
`calculateRealWorldDistance p1 p2 < d` used by determineSprayTargets.
For d > 0, `sqrt s < d ↔ s < d^2`; for d ≤ 0 the square root (being
nonnegative) is never below d.  The equivalence with the real-valued
function is proved in `distanceLtB_iff`. -/
def distanceLtB (p1 p2 : Point3) (d : ℚ) : Bool :=
  if p1.z = 0 ∨ p2.z = 0 then decide (fltMax < d)
  else decide (0 < d ∧ (p1.x - p2.x) ^ 2 + (p1.y - p2.y) ^ 2 + (p1.z - p2.z) ^ 2 < d ^ 2)

/-- Embedding of the per-pixel semantics of
`cv::threshold(temp, mask, thresh, 255.0, cv::THRESH_BINARY)` used in
step 1 of detectAndFilterHotspots (src/vision_processing.cpp): a pixel
maps to maxval exactly when its value is STRICTLY greater than the
threshold, else to 0. -/
def thresholdBinary (thresh maxval v : ℚ) : ℚ :=
  if thresh < v then maxval else 0

/-- Binary mask of step 1 of detectAndFilterHotspots: the temperature
field (a rectangular grid embedded row-major as a list of rows) pushed
pixelwise through THRESH_BINARY with maxval 255. -/
def binaryMask (field : List (List ℚ)) (thresh : ℚ) : List (List ℚ) :=
  field.map (fun row => row.map (thresholdBinary thresh 255))

/-- Embedding of the CloudGimbalAngles structure (src/utils.h). -/
structure CloudGimbalAngles where
  targetAzimuthDegrees : ℚ
  targetPitchDegrees : ℚ
deriving DecidableEq, Repr

/-- Embedding of calculateGimbalAngles (src/vision_processing.cpp).
Width/height are C++ ints (ℤ); all angle quantities are rationals.  The
commented-out normalisation/clamping in the source is dead code and is
not modelled. -/
def calculateGimbalAngles (targetPixelCoords : ℚ × ℚ)
    (imageWidth imageHeight : ℤ)
    (cameraHfovDegrees cameraVfovDegrees : ℚ)
    (currentCloudAzimuthDegrees currentCloudPitchDegrees : ℚ)
    (nozzleOffsetAzimuthDegrees nozzleOffsetPitchDegrees : ℚ) : CloudGimbalAngles :=
  if imageWidth ≤ 0 ∨ imageHeight ≤ 0 ∨ cameraHfovDegrees ≤ 0 ∨ cameraVfovDegrees ≤ 0 then
    ⟨currentCloudAzimuthDegrees, currentCloudPitchDegrees⟩
  else
    let cx : ℚ := (imageWidth : ℚ) / 2
    let cy : ℚ := (imageHeight : ℚ) / 2
    let deltaAzimuthDegrees : ℚ := ((targetPixelCoords.1 - cx) / cx) * (cameraHfovDegrees / 2)
    let deltaPitchDegrees : ℚ := ((targetPixelCoords.2 - cy) / cy) * (cameraVfovDegrees / 2)
    ⟨currentCloudAzimuthDegrees + deltaAzimuthDegrees - nozzleOffsetAzimuthDegrees,
     currentCloudPitchDegrees + deltaPitchDegrees - nozzleOffsetPitchDegrees⟩

/-- Embedding of the HotSpot structure (src/utils.h).  The contour pixel
list is irrelevant to every property below and is omitted; the mutable
`grouped` scratch flag (reset at the top of determineSprayTargets and
used only inside one pass) is represented by the algorithm state of
`sprayGroups` below rather than stored on the entity. -/
structure HotSpot where
  id : ℤ
  pixelCentroid : ℚ × ℚ
  worldCoordApprox : Point3
  areaPixels : ℚ
  maxTemperature : ℚ
deriving DecidableEq, Repr

/-- Embedding of the SprayTarget structure (src/utils.h). -/
structure SprayTarget where
  id : ℤ
  finalPixelAimPoint : ℚ × ℚ
  finalWorldAimPointApprox : Point3
  sourceHotspotIds : List ℤ
  estimatedSeverity : ℚ
deriving DecidableEq, Repr

/-- Grouping test of the inner loop of determineSprayTargets:
`calculateRealWorldDistance(hot_spots[i].world_coord_approx,
hot_spots[j].world_coord_approx) < max_grouping_distance_param`, with
the seed as first argument (executable form; see `distanceLtB_iff`). -/
def close (maxDist : ℚ) (seed other : HotSpot) : Bool :=
  distanceLtB seed.worldCoordApprox other.worldCoordApprox maxDist

/-
Functional embedding of the two nested loops of determineSprayTargets
(src/vision_processing.cpp, lines 83-124).  The C++ keeps a `grouped`
flag per hotspot: the outer loop visits indices in order and skips
grouped ones; an ungrouped hotspot i becomes the seed of a new group;
the inner loop visits indices j > i, skips grouped ones, tests each
survivor against the SEED i only, and marks admitted ones grouped.
Because each j is examined exactly once per inner pass and the test
depends only on the pair (seed, j), the suffix of still-ungrouped
hotspots evolves as: pop the head h as seed, admit from the tail exactly
those close to h, and continue with the tail with the admitted ones
removed.  `sprayGroups` is that evolution; `ungroupSeedStep` /
`remainingAfter` expose the list of still-ungrouped hotspots after each
seed has been processed.
-/

/-- One outer-loop step of determineSprayTargets on the list of
still-ungrouped hotspots: the head seeds a group and the hotspots it
admits (those close to the seed) are removed. -/
def ungroupSeedStep (maxDist : ℚ) : List HotSpot → List HotSpot
  | [] => []
  | h :: rest => rest.filter (fun j => ! close maxDist h j)

/-- List of still-ungrouped hotspots after `n` seeds have been
processed. -/
def remainingAfter (maxDist : ℚ) (l : List HotSpot) : ℕ → List HotSpot
  | 0 => l
  | n + 1 => ungroupSeedStep maxDist (remainingAfter maxDist l n)

/-- Groups formed by determineSprayTargets, in formation (seed
iteration) order; each group is its seed followed by the admitted
hotspots in scan order. -/
def sprayGroups (maxDist : ℚ) : List HotSpot → List (List HotSpot)
  | [] => []
  | h :: rest =>
    (h :: rest.filter (fun j => close maxDist h j))
      :: sprayGroups maxDist (rest.filter (fun j => ! close maxDist h j))
termination_by l => l.length
decreasing_by
  simpa using Nat.lt_succ_of_le (List.length_filter_le _ rest)

/-- Aggregation step of determineSprayTargets for one group (lines
88-123 of src/vision_processing.cpp): member ids in admission order,
mean pixel aim point, mean world aim point guarded by the accumulated-z
sentinel, and severity = Σ area × peak temperature. -/
def mkSprayTarget (tid : ℤ) (g : List HotSpot) : SprayTarget :=
  let n : ℚ := (g.length : ℚ)
  let sumWorldZ : ℚ := (g.map (fun s => s.worldCoordApprox.z)).sum
  { id := tid
    finalPixelAimPoint :=
      ((g.map (fun s => s.pixelCentroid.1)).sum * (1 / n),
       (g.map (fun s => s.pixelCentroid.2)).sum * (1 / n))
    finalWorldAimPointApprox :=
      if sumWorldZ ≠ 0 ∧ 0 < g.length then
        ⟨(g.map (fun s => s.worldCoordApprox.x)).sum * (1 / n),
         (g.map (fun s => s.worldCoordApprox.y)).sum * (1 / n),
         sumWorldZ * (1 / n)⟩
      else ⟨0, 0, 0⟩
    sourceHotspotIds := g.map (fun s => s.id)
    estimatedSeverity := (g.map (fun s => s.areaPixels * s.maxTemperature)).sum }

/-- Targets in formation order with sequential ids from
`target_id_counter` (which starts at 0 and increments once per group
created). -/
def rawTargetsAux (tid : ℕ) : List (List HotSpot) → List SprayTarget
  | [] => []
  | g :: gs => mkSprayTarget (tid : ℤ) g :: rawTargetsAux (tid + 1) gs

/-- The SprayTarget list of determineSprayTargets before the final
std::sort. -/
def rawSprayTargets (hotSpots : List HotSpot) (maxDist : ℚ) : List SprayTarget :=
  rawTargetsAux 0 (sprayGroups maxDist hotSpots)

/-- Order underlying SprayTarget::operator< (src/utils.h): the sort
comparator is `a.estimated_severity > b.estimated_severity`, so the
sorted output is weakly decreasing in severity, i.e. consecutive
elements satisfy `severityGE`. -/
def severityGE (a b : SprayTarget) : Prop :=
  b.estimatedSeverity ≤ a.estimatedSeverity

instance : DecidableRel severityGE := fun a b =>
  inferInstanceAs (Decidable (b.estimatedSeverity ≤ a.estimatedSeverity))

instance : IsTotal SprayTarget severityGE :=
  ⟨fun a b => le_total b.estimatedSeverity a.estimatedSeverity⟩

instance : IsTrans SprayTarget severityGE :=
  ⟨fun _ _ _ hab hbc => le_trans hbc hab⟩

/-- Postcondition guaranteed by `std::sort(v.begin(), v.end())` with the
strict weak order SprayTarget::operator< : the result is SOME
permutation of the input that is sorted with respect to the comparator
(equivalently, weakly decreasing in severity).  The C++ standard does
NOT promise stability, so which permutation is produced on severity
ties is unspecified. -/
def stdSortPostcondition (input output : List SprayTarget) : Prop :=
  output.Perm input ∧ List.Sorted severityGE output

/-- Embedding of determineSprayTargets (src/vision_processing.cpp).
The final std::sort only guarantees `stdSortPostcondition`; this model
fixes one admissible refinement (insertion sort).  Every property proved
below about the sorted output except the order of severity ties holds
for every admissible refinement.  The early return on empty input is
subsumed: `sprayGroups` of `[]` is `[]`. -/
def determineSprayTargets (hotSpots : List HotSpot) (maxDist : ℚ) : List SprayTarget :=
  List.insertionSort severityGE (rawSprayTargets hotSpots maxDist)

/-- Recomputation of a member's severity contribution from its id, by
looking the id up in the input hotspot list (the form in which the spec
states the severity invariant). -/
def severityOfId (l : List HotSpot) (i : ℤ) : ℚ :=
  match l.find? (fun s => decide (s.id = i)) with
  | some s => s.areaPixels * s.maxTemperature
  | none => 0

/-- Example hotspot A (seed of the concrete runs below): world position
(0, 0, 8) on the assumed plane z = 8. -/
def exA : HotSpot := ⟨0, (10, 10), ⟨0, 0, 8⟩, 40, 300⟩

/-- Example hotspot C: at distance 9 from exA (within a grouping radius
of 10). -/
def exC : HotSpot := ⟨1, (20, 10), ⟨9, 0, 8⟩, 40, 300⟩

/-- Example hotspot B: at distance 9 from exC but 18 from exA — close to
a member of exA's group but not to its seed. -/
def exB : HotSpot := ⟨2, (30, 10), ⟨18, 0, 8⟩, 40, 260⟩

/-- Example hotspot with the broken-projection sentinel z = 0. -/
def exZ : HotSpot := ⟨3, (5, 5), ⟨2, 2, 0⟩, 10, 400⟩

/-- Example hotspot far from exA (distance 100) with exactly the same
area and peak temperature, hence the same severity. -/
def exFar : HotSpot := ⟨1, (30, 10), ⟨100, 0, 8⟩, 40, 300⟩

section Helpers

theorem distanceLtB_iff (p1 p2 : Point3) (d : ℚ) :
    distanceLtB p1 p2 d = true ↔ calculateRealWorldDistance p1 p2 < (d : ℝ) := by
  unfold distanceLtB calculateRealWorldDistance
  by_cases hz : p1.z = 0 ∨ p2.z = 0
  · simp only [if_pos hz, decide_eq_true_eq]
    exact_mod_cast Iff.rfl
  · simp only [if_neg hz, decide_eq_true_eq]
    constructor
    · rintro ⟨hd, hlt⟩
      have hd' : (0 : ℝ) < (d : ℝ) := by exact_mod_cast hd
      refine (Real.sqrt_lt' hd').mpr ?_
      push_cast
      exact_mod_cast hlt
    · intro h
      have hd' : (0 : ℝ) < (d : ℝ) :=
        lt_of_le_of_lt (Real.sqrt_nonneg _) h
      have hd : (0 : ℚ) < d := by exact_mod_cast hd'
      refine ⟨hd, ?_⟩
      have := (Real.sqrt_lt' hd').mp h
      exact_mod_cast this

theorem sprayGroups_nil (d : ℚ) : sprayGroups d [] = [] := by
  simp [sprayGroups]

theorem sprayGroups_cons (d : ℚ) (h : HotSpot) (rest : List HotSpot) :
    sprayGroups d (h :: rest)
      = (h :: rest.filter (fun j => close d h j))
          :: sprayGroups d (rest.filter (fun j => ! close d h j)) := by
  simp [sprayGroups]

theorem sprayGroups_flatten_perm_aux (d : ℚ) :
    ∀ (n : ℕ) (l : List HotSpot), l.length ≤ n → (sprayGroups d l).flatten.Perm l := by
  intro n
  induction n with
  | zero =>
    intro l hl
    rw [List.eq_nil_of_length_eq_zero (Nat.le_zero.mp hl)]
    simp [sprayGroups_nil]
  | succ n ih =>
    intro l hl
    cases l with
    | nil => simp [sprayGroups_nil]
    | cons h rest =>
      rw [sprayGroups_cons]
      have hlen : (rest.filter (fun j => ! close d h j)).length ≤ n :=
        le_trans (List.length_filter_le _ rest)
          (Nat.succ_le_succ_iff.mp (by simpa using hl))
      have ihr := ih _ hlen
      have hfl : ((h :: rest.filter (fun j => close d h j))
              :: sprayGroups d (rest.filter (fun j => ! close d h j))).flatten
          = h :: (rest.filter (fun j => close d h j)
              ++ (sprayGroups d (rest.filter (fun j => ! close d h j))).flatten) := by
        simp
      rw [hfl]
      exact List.Perm.trans ((ihr.append_left _).cons h)
        ((List.filter_append_perm _ rest).cons h)

theorem sprayGroups_flatten_perm (d : ℚ) (l : List HotSpot) :
    (sprayGroups d l).flatten.Perm l :=
  sprayGroups_flatten_perm_aux d l.length l le_rfl

theorem mem_of_mem_sprayGroups {d : ℚ} {l : List HotSpot} {g : List HotSpot}
    {s : HotSpot} (hg : g ∈ sprayGroups d l) (hs : s ∈ g) : s ∈ l :=
  (sprayGroups_flatten_perm d l).subset (List.mem_flatten.mpr ⟨g, hg, hs⟩)

theorem remainingAfter_nil (d : ℚ) (n : ℕ) : remainingAfter d [] n = [] := by
  induction n with
  | zero => rfl
  | succ n ih => simp [remainingAfter, ih, ungroupSeedStep]

theorem remainingAfter_succ_comm (d : ℚ) (l : List HotSpot) (n : ℕ) :
    remainingAfter d l (n + 1) = remainingAfter d (ungroupSeedStep d l) n := by
  induction n with
  | zero => rfl
  | succ n ih =>
    calc remainingAfter d l (n + 2)
        = ungroupSeedStep d (remainingAfter d l (n + 1)) := rfl
      _ = ungroupSeedStep d (remainingAfter d (ungroupSeedStep d l) n) := by rw [ih]
      _ = remainingAfter d (ungroupSeedStep d l) (n + 1) := rfl

theorem remainingAfter_succ (d : ℚ) (l : List HotSpot) (n : ℕ) :
    remainingAfter d l (n + 1) = ungroupSeedStep d (remainingAfter d l n) := rfl

theorem remainingAfter_sublist (d : ℚ) (l : List HotSpot) (n : ℕ) :
    (remainingAfter d l n).Sublist l := by
  induction n with
  | zero => exact List.Sublist.refl l
  | succ n ih =>
    rw [remainingAfter_succ]
    refine List.Sublist.trans ?_ ih
    cases remainingAfter d l n with
    | nil => simp [ungroupSeedStep]
    | cons h rest =>
      show (rest.filter (fun j => ! close d h j)).Sublist (h :: rest)
      exact (List.filter_sublist rest).trans (List.sublist_cons_self h rest)

theorem sprayGroups_get?_of_remainingAfter (d : ℚ) :
    ∀ (n : ℕ) (l : List HotSpot) (h : HotSpot) (rest : List HotSpot),
      remainingAfter d l n = h :: rest →
      (sprayGroups d l).get? n = some (h :: rest.filter (fun j => close d h j)) := by
  intro n
  induction n with
  | zero =>
    intro l h rest hrem
    rw [show l = h :: rest from hrem, sprayGroups_cons]
    rfl
  | succ n ih =>
    intro l h rest hrem
    cases l with
    | nil => rw [remainingAfter_nil] at hrem; exact absurd hrem (by simp)
    | cons h0 rest0 =>
      rw [remainingAfter_succ_comm] at hrem
      have hstep : ungroupSeedStep d (h0 :: rest0) = rest0.filter (fun j => ! close d h0 j) := rfl
      rw [hstep] at hrem
      rw [sprayGroups_cons]
      simpa using ih _ h rest hrem

theorem mem_rawTargetsAux {t : SprayTarget} :
    ∀ {k : ℕ} {gs : List (List HotSpot)}, t ∈ rawTargetsAux k gs →
      ∃ (tid : ℤ) (g : List HotSpot), g ∈ gs ∧ t = mkSprayTarget tid g := by
  intro k gs
  induction gs generalizing k with
  | nil => intro ht; exact absurd ht (by simp [rawTargetsAux])
  | cons g gs ih =>
    intro ht
    rcases (by simpa [rawTargetsAux] using ht :
        t = mkSprayTarget (k : ℤ) g ∨ t ∈ rawTargetsAux (k + 1) gs) with h | h
    · exact ⟨(k : ℤ), g, List.mem_cons_self g gs, h⟩
    · obtain ⟨tid, g', hg', ht'⟩ := ih h
      exact ⟨tid, g', List.mem_cons_of_mem g hg', ht'⟩

theorem rawTargetsAux_mem_of_mem {g : List HotSpot} :
    ∀ {k : ℕ} {gs : List (List HotSpot)}, g ∈ gs →
      ∃ tid : ℤ, mkSprayTarget tid g ∈ rawTargetsAux k gs := by
  intro k gs
  induction gs generalizing k with
  | nil => intro hg; exact absurd hg (by simp)
  | cons g0 gs ih =>
    intro hg
    rcases List.mem_cons.mp hg with h | h
    · exact ⟨(k : ℤ), by rw [h]; exact List.mem_cons_self _ _⟩
    · obtain ⟨tid, ht⟩ := ih (k := k + 1) h
      exact ⟨tid, List.mem_cons_of_mem _ ht⟩

theorem rawTargetsAux_flatMap_ids :
    ∀ (k : ℕ) (gs : List (List HotSpot)),
      (rawTargetsAux k gs).flatMap SprayTarget.sourceHotspotIds
        = gs.flatten.map HotSpot.id := by
  intro k gs
  induction gs generalizing k with
  | nil => rfl
  | cons g gs ih =>
    simp only [rawTargetsAux, List.flatMap_cons, List.flatten_cons, List.map_append, ih]
    rfl

theorem mem_determineSprayTargets_iff {l : List HotSpot} {d : ℚ} {t : SprayTarget} :
    t ∈ determineSprayTargets l d ↔ t ∈ rawSprayTargets l d :=
  (List.perm_insertionSort severityGE (rawSprayTargets l d)).mem_iff

theorem find?_id_eq_some {l : List HotSpot} {s : HotSpot}
    (hnd : (l.map HotSpot.id).Nodup) (hs : s ∈ l) :
    l.find? (fun x => decide (x.id = s.id)) = some s := by
  induction l with
  | nil => exact absurd hs (by simp)
  | cons a l ih =>
    rw [List.map_cons, List.nodup_cons] at hnd
    by_cases ha : a.id = s.id
    · have hsa : s = a := by
        rcases List.mem_cons.mp hs with h | h
        · exact h
        · exact absurd (ha ▸ List.mem_map_of_mem HotSpot.id h) hnd.1
      rw [List.find?_cons_of_pos _ (by simpa using ha), hsa]
    · have hs' : s ∈ l := by
        rcases List.mem_cons.mp hs with h | h
        · exact absurd (h ▸ rfl) (Ne.symm ha)
        · exact h
      rw [List.find?_cons_of_neg _ (by simpa using ha)]
      exact ih hnd.2 hs'

theorem close_eq_false_left {maxDist : ℚ} {s j : HotSpot}
    (hfin : maxDist ≤ fltMax) (hz : s.worldCoordApprox.z = 0) :
    close maxDist s j = false := by
  unfold close distanceLtB
  rw [if_pos (Or.inl hz)]
  exact decide_eq_false (not_lt.mpr hfin)

theorem close_eq_false_right {maxDist : ℚ} {s j : HotSpot}
    (hfin : maxDist ≤ fltMax) (hz : s.worldCoordApprox.z = 0) :
    close maxDist j s = false := by
  unfold close distanceLtB
  rw [if_pos (Or.inr hz)]
  exact decide_eq_false (not_lt.mpr hfin)

theorem group_singleton_of_z_zero_aux (maxDist : ℚ) {s : HotSpot}
    (hfin : maxDist ≤ fltMax) (hz : s.worldCoordApprox.z = 0) :
    ∀ (n : ℕ) (l : List HotSpot), l.length ≤ n →
      ∀ g ∈ sprayGroups maxDist l, s ∈ g → g = [s] := by
  intro n
  induction n with
  | zero =>
    intro l hl
    rw [List.eq_nil_of_length_eq_zero (Nat.le_zero.mp hl)]
    simp [sprayGroups_nil]
  | succ n ih =>
    intro l hl
    cases l with
    | nil => simp [sprayGroups_nil]
    | cons h rest =>
      rw [sprayGroups_cons]
      intro g hg hsg
      rcases List.mem_cons.mp hg with hghead | hgtail
      · subst hghead
        rcases List.mem_cons.mp hsg with hsh | hsf
        · subst hsh
          have hfe : rest.filter (fun j => close maxDist s j) = [] := by
            rw [List.filter_eq_nil_iff]
            intro j hj
            simp [close_eq_false_left hfin hz]
          rw [hfe]
        · have hct : close maxDist h s = true := (List.mem_filter.mp hsf).2
          rw [close_eq_false_right hfin hz] at hct
          exact absurd hct (by simp)
      · exact ih (rest.filter (fun j => ! close maxDist h j))
          (le_trans (List.length_filter_le _ _)
            (Nat.succ_le_succ_iff.mp (by simpa using hl)))
          g hgtail hsg

theorem group_singleton_of_z_zero {maxDist : ℚ} {l : List HotSpot} {s : HotSpot}
    {g : List HotSpot} (hfin : maxDist ≤ fltMax) (hz : s.worldCoordApprox.z = 0)
    (hg : g ∈ sprayGroups maxDist l) (hsg : s ∈ g) : g = [s] :=
  group_singleton_of_z_zero_aux maxDist hfin hz l.length l le_rfl g hg hsg

theorem close_exA_exC : close 10 exA exC = true := by
  norm_num [close, distanceLtB, exA, exC, fltMax]

theorem close_exA_exB : close 10 exA exB = false := by
  norm_num [close, distanceLtB, exA, exB, fltMax]

theorem close_exA_exFar : close 10 exA exFar = false := by
  norm_num [close, distanceLtB, exA, exFar, fltMax]

theorem exGroups_eval : sprayGroups 10 [exA, exC, exB] = [[exA, exC], [exB]] := by
  simp [sprayGroups_cons, sprayGroups_nil, List.filter_cons,
    close_exA_exC, close_exA_exB]

theorem exRaw_eval : rawSprayTargets [exA, exC, exB] 10
    = [mkSprayTarget 0 [exA, exC], mkSprayTarget 1 [exB]] := by
  rw [rawSprayTargets, exGroups_eval]
  rfl

theorem exSev_le : severityGE (mkSprayTarget 0 [exA, exC]) (mkSprayTarget 1 [exB]) := by
  norm_num [severityGE, mkSprayTarget, exA, exC, exB]

theorem exOut_eval : determineSprayTargets [exA, exC, exB] 10
    = [mkSprayTarget 0 [exA, exC], mkSprayTarget 1 [exB]] := by
  rw [determineSprayTargets, exRaw_eval]
  simp [List.insertionSort, List.orderedInsert, exSev_le]

end Helpers

/-- C1: for every target pixel, image size, FOV pair, current attitude
and nozzle offsets satisfying the validity precondition (width>0,
height>0, hFov>0, vFov>0), calculateGimbalAngles returns
azimuth = currentAzimuth + ((x − w/2)/(w/2))·(hFov/2) − nozzleAzimuthOffset
and pitch = currentPitch + ((y − h/2)/(h/2))·(vFov/2) − nozzlePitchOffset;
in particular the (197.08, 224.43) / 384×288 / 39.5° / 30.1° / (0,0) /
(1.5, −2.0) scenario yields azimuth within ±0.01° of −0.977° and pitch
within ±0.01° of 10.406°. -/
theorem calculateGimbalAngles_formula_spec (px py : ℚ) (w h : ℤ)
    (hf vf caz cp noz nop : ℚ)
    (hw : 0 < w) (hh : 0 < h) (hhf : 0 < hf) (hvf : 0 < vf) :
    (calculateGimbalAngles (px, py) w h hf vf caz cp noz nop).targetAzimuthDegrees
        = caz + ((px - (w : ℚ) / 2) / ((w : ℚ) / 2)) * (hf / 2) - noz
    ∧ (calculateGimbalAngles (px, py) w h hf vf caz cp noz nop).targetPitchDegrees
        = cp + ((py - (h : ℚ) / 2) / ((h : ℚ) / 2)) * (vf / 2) - nop
    ∧ |(calculateGimbalAngles (19708/100, 22443/100) 384 288 (395/10) (301/10)
          0 0 (3/2) (-2)).targetAzimuthDegrees - (-(977/1000))| ≤ 1/100
    ∧ |(calculateGimbalAngles (19708/100, 22443/100) 384 288 (395/10) (301/10)
          0 0 (3/2) (-2)).targetPitchDegrees - 10406/1000| ≤ 1/100 := by
  have hcond : ¬(w ≤ 0 ∨ h ≤ 0 ∨ hf ≤ 0 ∨ vf ≤ 0) := by
    push_neg
    exact ⟨hw, hh, hhf, hvf⟩
  refine ⟨?_, ?_, ?_, ?_⟩
  · unfold calculateGimbalAngles
    rw [if_neg hcond]
  · unfold calculateGimbalAngles
    rw [if_neg hcond]
  · rw [abs_le]
    constructor <;> norm_num [calculateGimbalAngles]
  · rw [abs_le]
    constructor <;> norm_num [calculateGimbalAngles]

/-- Witness for C1 at the spec's own scenario (precondition instantiated
at the 384×288 frame). -/
theorem calculateGimbalAngles_formula_spec_witness :
    (calculateGimbalAngles (19708/100, 22443/100) 384 288 (395/10) (301/10)
        0 0 (3/2) (-2)).targetAzimuthDegrees
      = 0 + ((19708/100 - (384 : ℤ) / 2) / ((384 : ℤ) / 2)) * ((395/10) / 2) - 3/2
    ∧ (calculateGimbalAngles (19708/100, 22443/100) 384 288 (395/10) (301/10)
        0 0 (3/2) (-2)).targetPitchDegrees
      = 0 + ((22443/100 - (288 : ℤ) / 2) / ((288 : ℤ) / 2)) * ((301/10) / 2) - (-2)
    ∧ |(calculateGimbalAngles (19708/100, 22443/100) 384 288 (395/10) (301/10)
          0 0 (3/2) (-2)).targetAzimuthDegrees - (-(977/1000))| ≤ 1/100
    ∧ |(calculateGimbalAngles (19708/100, 22443/100) 384 288 (395/10) (301/10)
          0 0 (3/2) (-2)).targetPitchDegrees - 10406/1000| ≤ 1/100 :=
  calculateGimbalAngles_formula_spec (19708/100) (22443/100) 384 288
    (395/10) (301/10) 0 0 (3/2) (-2)
    (by norm_num) (by norm_num) (by norm_num) (by norm_num)

/-- C8: whenever width ≤ 0, height ≤ 0, hFov ≤ 0 or vFov ≤ 0 (including
hFov = 0 or vFov = 0 exactly), calculateGimbalAngles returns the input
current attitude unchanged. -/
theorem calculateGimbalAngles_invalid_params (px py : ℚ) (w h : ℤ)
    (hf vf caz cp noz nop : ℚ)
    (hinv : w ≤ 0 ∨ h ≤ 0 ∨ hf ≤ 0 ∨ vf ≤ 0) :
    calculateGimbalAngles (px, py) w h hf vf caz cp noz nop = ⟨caz, cp⟩ := by
  unfold calculateGimbalAngles
  rw [if_pos hinv]

/-- Witness for C8 at hFov = 0 exactly. -/
theorem calculateGimbalAngles_invalid_params_witness :
    calculateGimbalAngles (5, 7) 384 288 0 (301/10) 11 13 (3/2) (-2)
      = ⟨11, 13⟩ :=
  calculateGimbalAngles_invalid_params 5 7 384 288 0 (301/10) 11 13 (3/2) (-2)
    (Or.inr (Or.inr (Or.inl le_rfl)))

/-- C10: under valid parameters the returned pitch is strictly
monotonically increasing in the target pixel's y coordinate (image-down
is hardwired to positive pitch). -/
theorem calculateGimbalAngles_pitch_monotone (px y1 y2 : ℚ) (w h : ℤ)
    (hf vf caz cp noz nop : ℚ)
    (hw : 0 < w) (hh : 0 < h) (hhf : 0 < hf) (hvf : 0 < vf) (hy : y1 < y2) :
    (calculateGimbalAngles (px, y1) w h hf vf caz cp noz nop).targetPitchDegrees
      < (calculateGimbalAngles (px, y2) w h hf vf caz cp noz nop).targetPitchDegrees := by
  have hcond : ¬(w ≤ 0 ∨ h ≤ 0 ∨ hf ≤ 0 ∨ vf ≤ 0) := by
    push_neg
    exact ⟨hw, hh, hhf, hvf⟩
  unfold calculateGimbalAngles
  rw [if_neg hcond, if_neg hcond]
  show cp + ((y1 - (h : ℚ) / 2) / ((h : ℚ) / 2)) * (vf / 2) - nop
      < cp + ((y2 - (h : ℚ) / 2) / ((h : ℚ) / 2)) * (vf / 2) - nop
  have hcy : (0 : ℚ) < (h : ℚ) / 2 := by
    have : (0 : ℚ) < (h : ℚ) := by exact_mod_cast hh
    linarith
  set c : ℚ := (h : ℚ) / 2 with hc
  have hstep : (y1 - c) / c < (y2 - c) / c := by
    rw [div_eq_mul_inv, div_eq_mul_inv]
    exact mul_lt_mul_of_pos_right (by linarith) (inv_pos.mpr hcy)
  have hmul := mul_lt_mul_of_pos_right hstep (by linarith : (0 : ℚ) < vf / 2)
  linarith

/-- Witness for C10: larger y yields larger pitch on the 384×288 frame. -/
theorem calculateGimbalAngles_pitch_monotone_witness :
    (calculateGimbalAngles (100, 120) 384 288 (395/10) (301/10)
        0 0 (3/2) (-2)).targetPitchDegrees
      < (calculateGimbalAngles (100, 200) 384 288 (395/10) (301/10)
        0 0 (3/2) (-2)).targetPitchDegrees :=
  calculateGimbalAngles_pitch_monotone 100 120 200 384 288 (395/10) (301/10)
    0 0 (3/2) (-2) (by norm_num) (by norm_num) (by norm_num) (by norm_num) (by norm_num)

/-- C5 counterexample: a pixel whose temperature equals the threshold
exactly (250 on both sides) is mapped to 0 by the THRESH_BINARY mask,
not to the hot value 255 — cv::threshold marks `src > thresh`, so the
claim's `≥` fails at equality. -/
theorem binaryMask_at_threshold_not_hot :
    (250 : ℚ) ≥ 250 ∧ binaryMask [[250]] 250 = [[0]] ∧ ((0 : ℚ) ≠ 255) := by
  refine ⟨le_refl _, ?_, by norm_num⟩
  norm_num [binaryMask, thresholdBinary]

/-- C5 amended: the binary mask of step 1 marks exactly the pixels whose
temperature is STRICTLY greater than the threshold (255 iff value >
threshold, 0 otherwise); a pixel equal to the threshold is classified
not-hot. -/
theorem binaryMask_strict (field : List (List ℚ)) (thresh : ℚ) (i j : ℕ)
    (row : List ℚ) (v : ℚ)
    (hrow : field.get? i = some row) (hv : row.get? j = some v) :
    ∃ mrow, (binaryMask field thresh).get? i = some mrow
      ∧ mrow.get? j = some (thresholdBinary thresh 255 v)
      ∧ (thresholdBinary thresh 255 v = 255 ↔ thresh < v)
      ∧ (thresholdBinary thresh 255 v = 0 ↔ ¬ thresh < v) := by
  refine ⟨row.map (thresholdBinary thresh 255), ?_, ?_, ?_, ?_⟩
  · rw [binaryMask, List.get?_map, hrow]
    rfl
  · rw [List.get?_map, hv]
    rfl
  · constructor
    · intro hEq
      by_contra hc
      unfold thresholdBinary at hEq
      rw [if_neg hc] at hEq
      norm_num at hEq
    · intro hc
      unfold thresholdBinary
      rw [if_pos hc]
  · constructor
    · intro hEq hc
      unfold thresholdBinary at hEq
      rw [if_pos hc] at hEq
      norm_num at hEq
    · intro hc
      unfold thresholdBinary
      rw [if_neg hc]

/-- Witness for C5's amended statement on a concrete 1×2 field. -/
theorem binaryMask_strict_witness :
    ∃ mrow, (binaryMask [[(250 : ℚ), 251]] 250).get? 0 = some mrow
      ∧ mrow.get? 1 = some (thresholdBinary 250 255 251)
      ∧ (thresholdBinary 250 255 251 = 255 ↔ (250 : ℚ) < 251)
      ∧ (thresholdBinary 250 255 251 = 0 ↔ ¬ (250 : ℚ) < 251) :=
  binaryMask_strict [[(250 : ℚ), 251]] 250 0 1 [(250 : ℚ), 251] 251 rfl rfl

/-- C7 counterexample: intrinsics with fy = 0 but fx = 1 ≠ 0 do NOT take
the sentinel branch — the source guard tests only the matrix being empty
or fx = 0 — so the returned point has z = distanceToPlane = 5 ≠ 0
instead of the claimed raw-pixel/Z=0 sentinel (and the C++ code divides
by the zero fy). -/
theorem pixelToApproxWorld_fy_zero_not_sentinel :
    (CamIntrinsics.mk 1 0 0 0).fy = 0
    ∧ (pixelToApproxWorld (3, 4) (some (CamIntrinsics.mk 1 0 0 0)) 5).z = 5
    ∧ ((5 : ℚ) ≠ 0) := by
  refine ⟨rfl, ?_, by norm_num⟩
  norm_num [pixelToApproxWorld]

/-- C7 amended: pixelToApproxWorld returns the raw pixel coordinates
with Z=0 as the no-valid-estimate sentinel when the camera matrix is
empty or fx = 0 (the only focal length the guard checks); whenever the
matrix is present with fx ≠ 0 the projection branch is taken and the
returned z equals the plane distance, even if fy = 0. -/
theorem pixelToApproxWorld_sentinel_conditions (pixel : ℚ × ℚ)
    (camMatrix : Option CamIntrinsics) (d : ℚ) :
    ((camMatrix = none ∨ ∃ m, camMatrix = some m ∧ m.fx = 0) →
        pixelToApproxWorld pixel camMatrix d = ⟨pixel.1, pixel.2, 0⟩)
    ∧ (∀ m, camMatrix = some m → m.fx ≠ 0 →
        (pixelToApproxWorld pixel camMatrix d).z = d) := by
  constructor
  · rintro (hnone | ⟨m, hm, hfx⟩)
    · rw [hnone]
      rfl
    · subst hm
      simp only [pixelToApproxWorld]
      rw [if_pos hfx]
  · intro m hm hfx
    subst hm
    simp only [pixelToApproxWorld]
    rw [if_neg hfx]

/-- Witness for C7's amended statement: sentinel at fx = 0, projection
branch at fx = 500. -/
theorem pixelToApproxWorld_sentinel_conditions_witness :
    ((some (CamIntrinsics.mk 0 500 320 240) = (none : Option CamIntrinsics)
        ∨ ∃ m, some (CamIntrinsics.mk 0 500 320 240) = some m ∧ m.fx = 0) →
      pixelToApproxWorld (3, 4) (some (CamIntrinsics.mk 0 500 320 240)) 9
        = ⟨3, 4, 0⟩)
    ∧ (∀ m, some (CamIntrinsics.mk 0 500 320 240) = some m → m.fx ≠ 0 →
        (pixelToApproxWorld (3, 4) (some (CamIntrinsics.mk 0 500 320 240)) 9).z = 9) :=
  pixelToApproxWorld_sentinel_conditions (3, 4)
    (some (CamIntrinsics.mk 0 500 320 240)) 9

/-- C2: the member-id lists of the SprayTargets returned by
determineSprayTargets, concatenated, are a permutation of the input id
list (every input hotspot id appears in the member-id list of exactly
one returned target), and when the input ids are distinct (as the
pipeline guarantees: ids are sequential per frame) no id appears twice
within or across targets. -/
theorem determineSprayTargets_partition (l : List HotSpot) (maxDist : ℚ) :
    ((determineSprayTargets l maxDist).flatMap SprayTarget.sourceHotspotIds).Perm
      (l.map HotSpot.id)
    ∧ ((l.map HotSpot.id).Nodup →
        ((determineSprayTargets l maxDist).flatMap SprayTarget.sourceHotspotIds).Nodup) := by
  have h1 : (determineSprayTargets l maxDist).Perm (rawSprayTargets l maxDist) :=
    List.perm_insertionSort severityGE (rawSprayTargets l maxDist)
  have h2 : ((determineSprayTargets l maxDist).flatMap SprayTarget.sourceHotspotIds).Perm
      ((rawSprayTargets l maxDist).flatMap SprayTarget.sourceHotspotIds) :=
    List.Perm.flatMap_right SprayTarget.sourceHotspotIds h1
  have h3 : (rawSprayTargets l maxDist).flatMap SprayTarget.sourceHotspotIds
      = (sprayGroups maxDist l).flatten.map HotSpot.id :=
    rawTargetsAux_flatMap_ids 0 (sprayGroups maxDist l)
  have hperm : ((determineSprayTargets l maxDist).flatMap SprayTarget.sourceHotspotIds).Perm
      (l.map HotSpot.id) := by
    rw [h3] at h2
    exact h2.trans ((sprayGroups_flatten_perm maxDist l).map HotSpot.id)
  exact ⟨hperm, fun hnd => (hperm.symm.nodup hnd)⟩

/-- Witness for C2 on a concrete three-hotspot frame (distinct ids
0, 1, 2): the output member ids are a permutation of the input ids and
contain no duplicate. -/
theorem determineSprayTargets_partition_witness :
    ((determineSprayTargets [exA, exC, exB] 10).flatMap SprayTarget.sourceHotspotIds).Perm
        ([exA, exC, exB].map HotSpot.id)
    ∧ ((determineSprayTargets [exA, exC, exB] 10).flatMap SprayTarget.sourceHotspotIds).Nodup :=
  ⟨(determineSprayTargets_partition [exA, exC, exB] 10).1,
   (determineSprayTargets_partition [exA, exC, exB] 10).2 (by decide)⟩

/-- C3: grouping is seed-relative, not transitive closure.  If after `n`
seeds the still-ungrouped hotspots are `h :: rest`, then the n-th group
produced by determineSprayTargets is seeded by `h`, and a hotspot `j`
that is still ungrouped when reached (`j ∈ rest`) belongs to that group
if and only if `distance3D(world(h), world(j)) < maxGroupingDistance` —
the distance is tested only against the seed `h`, never against other
admitted members. -/
theorem sprayGroups_seed_relative (maxDist : ℚ) (l : List HotSpot) (hnd : l.Nodup)
    (n : ℕ) (h : HotSpot) (rest : List HotSpot)
    (hrem : remainingAfter maxDist l n = h :: rest) :
    (sprayGroups maxDist l).get? n
        = some (h :: rest.filter (fun j => close maxDist h j))
    ∧ ∀ j ∈ rest,
        (j ∈ h :: rest.filter (fun j => close maxDist h j)
          ↔ calculateRealWorldDistance h.worldCoordApprox j.worldCoordApprox
              < (maxDist : ℝ)) := by
  refine ⟨sprayGroups_get?_of_remainingAfter maxDist n l h rest hrem, ?_⟩
  intro j hj
  have hsub : (h :: rest).Sublist l := hrem ▸ remainingAfter_sublist maxDist l n
  have hnd' : (h :: rest).Nodup := hsub.nodup hnd
  have hne : j ≠ h := by
    intro he
    exact (List.nodup_cons.mp hnd').1 (he ▸ hj)
  rw [← distanceLtB_iff]
  constructor
  · intro hmem
    rcases List.mem_cons.mp hmem with he | hf
    · exact absurd he hne
    · exact (List.mem_filter.mp hf).2
  · intro hclose
    exact List.mem_cons_of_mem h (List.mem_filter.mpr ⟨hj, hclose⟩)

/-- Witness for C3 at the non-transitive configuration: seed exA admits
exC (distance 9 < 10) but not exB (distance 18 from the seed), even
though exB is within distance 9 of the admitted member exC. -/
theorem sprayGroups_seed_relative_witness :
    (sprayGroups 10 [exA, exC, exB]).get? 0
        = some (exA :: [exC, exB].filter (fun j => close 10 exA j))
    ∧ ∀ j ∈ [exC, exB],
        (j ∈ exA :: [exC, exB].filter (fun j => close 10 exA j)
          ↔ calculateRealWorldDistance exA.worldCoordApprox j.worldCoordApprox
              < ((10 : ℚ) : ℝ)) :=
  sprayGroups_seed_relative 10 [exA, exC, exB] (by decide) 0 exA [exC, exB] rfl

/-- C9: the severity of every SprayTarget returned by
determineSprayTargets recomputes exactly as Σ area × peak temperature
over the members listed in its member-id list (ids looked up in the
input list, which has distinct ids as the pipeline guarantees). -/
theorem determineSprayTargets_severity_recompute (l : List HotSpot) (maxDist : ℚ)
    (hnd : (l.map HotSpot.id).Nodup) :
    ∀ t ∈ determineSprayTargets l maxDist,
      t.estimatedSeverity = (t.sourceHotspotIds.map (severityOfId l)).sum := by
  intro t ht
  have ht' : t ∈ rawTargetsAux 0 (sprayGroups maxDist l) :=
    mem_determineSprayTargets_iff.mp ht
  obtain ⟨tid, g, hg, rfl⟩ := mem_rawTargetsAux ht'
  simp only [mkSprayTarget, List.map_map]
  congr 1
  refine (List.map_congr_left ?_).symm
  intro s hs
  have hsl : s ∈ l := mem_of_mem_sprayGroups hg hs
  show severityOfId l s.id = s.areaPixels * s.maxTemperature
  unfold severityOfId
  rw [find?_id_eq_some hnd hsl]

/-- Witness for C9 on the concrete three-hotspot frame, at the target
grouping exA with exC (severity 24000 = 40·300 + 40·300). -/
theorem determineSprayTargets_severity_recompute_witness :
    (mkSprayTarget 0 [exA, exC]).estimatedSeverity
      = ((mkSprayTarget 0 [exA, exC]).sourceHotspotIds.map
          (severityOfId [exA, exC, exB])).sum :=
  determineSprayTargets_severity_recompute [exA, exC, exB] 10 (by decide)
    (mkSprayTarget 0 [exA, exC])
    (by rw [exOut_eval]; exact List.mem_cons_self _ _)

/-- C4 counterexample (to the stable-tie-break half of the claim): a
concrete frame of two far-apart hotspots with identical severity forms
targets [T0, T1] in that formation order, yet the reversed order
[T1, T0] also satisfies everything `std::sort` with
SprayTarget::operator< guarantees (it is a sorted permutation), so the
code does NOT guarantee that equal-severity targets appear in formation
order — the source uses std::sort, which is not stable. -/
theorem stdSort_tie_order_unspecified :
    rawSprayTargets [exA, exFar] 10
        = [mkSprayTarget 0 [exA], mkSprayTarget 1 [exFar]]
    ∧ stdSortPostcondition [mkSprayTarget 0 [exA], mkSprayTarget 1 [exFar]]
        [mkSprayTarget 1 [exFar], mkSprayTarget 0 [exA]]
    ∧ [mkSprayTarget 1 [exFar], mkSprayTarget 0 [exA]]
        ≠ [mkSprayTarget 0 [exA], mkSprayTarget 1 [exFar]] := by
  refine ⟨?_, ⟨?_, ?_⟩, ?_⟩
  · rw [rawSprayTargets]
    simp [sprayGroups_cons, sprayGroups_nil, List.filter_cons, close_exA_exFar,
      rawTargetsAux]
  · exact List.Perm.swap (mkSprayTarget 0 [exA]) (mkSprayTarget 1 [exFar]) []
  · refine List.pairwise_cons.mpr ⟨?_, List.pairwise_singleton _ _⟩
    intro b hb
    rw [List.mem_singleton.mp hb]
    norm_num [severityGE, mkSprayTarget, exA, exFar]
  · simp [mkSprayTarget]

/-- C4 amended: the SprayTarget list returned by determineSprayTargets
is sorted by descending severity (for positions i < j the later
severity is ≤ the earlier); the relative order of equal-severity
targets is implementation-defined (std::sort is not stable), so no tie
order is guaranteed. -/
theorem determineSprayTargets_sorted_descending (l : List HotSpot) (d : ℚ)
    (i j : ℕ) (hij : i < j) (a b : SprayTarget)
    (ha : (determineSprayTargets l d).get? i = some a)
    (hb : (determineSprayTargets l d).get? j = some b) :
    b.estimatedSeverity ≤ a.estimatedSeverity := by
  have hs : List.Sorted severityGE (determineSprayTargets l d) :=
    List.sorted_insertionSort severityGE (rawSprayTargets l d)
  rcases List.get?_eq_some.mp ha with ⟨hi, hga⟩
  rcases List.get?_eq_some.mp hb with ⟨hj, hgb⟩
  have hrel := (List.pairwise_iff_get.mp hs) ⟨i, hi⟩ ⟨j, hj⟩ (Fin.mk_lt_mk.mpr hij)
  rw [hga, hgb] at hrel
  exact hrel

/-- Witness for C4's amended statement on the concrete three-hotspot
frame: position 1 (severity 10400) is below position 0 (severity
24000). -/
theorem determineSprayTargets_sorted_descending_witness :
    (mkSprayTarget 1 [exB]).estimatedSeverity
      ≤ (mkSprayTarget 0 [exA, exC]).estimatedSeverity :=
  determineSprayTargets_sorted_descending [exA, exC, exB] 10 0 1 (by norm_num)
    (mkSprayTarget 0 [exA, exC]) (mkSprayTarget 1 [exB])
    (by rw [exOut_eval]; rfl) (by rw [exOut_eval]; rfl)

/-- C6: calculateRealWorldDistance returns the FLT_MAX sentinel whenever
either argument has z = 0, and consequently (for any finite grouping
distance, i.e. any value ≤ FLT_MAX, and distinct input ids) a hotspot
whose approximate world position has z = 0 always ends up in a
singleton SprayTarget: some returned target has member-id list exactly
[s.id], and every returned target containing s.id has no other
member. -/
theorem distance_sentinel_isolates (p q : Point3) (l : List HotSpot) (maxDist : ℚ)
    (s : HotSpot) (hzpq : p.z = 0 ∨ q.z = 0) (hfin : maxDist ≤ fltMax)
    (hs : s ∈ l) (hz : s.worldCoordApprox.z = 0)
    (hnd : (l.map HotSpot.id).Nodup) :
    calculateRealWorldDistance p q = (fltMax : ℝ)
    ∧ (∃ t ∈ determineSprayTargets l maxDist, t.sourceHotspotIds = [s.id])
    ∧ (∀ t ∈ determineSprayTargets l maxDist,
        s.id ∈ t.sourceHotspotIds → t.sourceHotspotIds = [s.id]) := by
  refine ⟨?_, ?_, ?_⟩
  · unfold calculateRealWorldDistance
    rw [if_pos hzpq]
  · obtain ⟨g, hg, hsg⟩ := List.mem_flatten.mp
      (((sprayGroups_flatten_perm maxDist l).symm).subset hs)
    have hgs : g = [s] := group_singleton_of_z_zero hfin hz hg hsg
    obtain ⟨tid, htid⟩ := rawTargetsAux_mem_of_mem (k := 0) (hgs ▸ hg)
    refine ⟨mkSprayTarget tid [s], mem_determineSprayTargets_iff.mpr htid, ?_⟩
    simp [mkSprayTarget]
  · intro t ht hid
    have ht' : t ∈ rawTargetsAux 0 (sprayGroups maxDist l) :=
      mem_determineSprayTargets_iff.mp ht
    obtain ⟨tid, g, hg, rfl⟩ := mem_rawTargetsAux ht'
    have hid' : s.id ∈ g.map HotSpot.id := hid
    obtain ⟨x, hxg, hxid⟩ := List.mem_map.mp hid'
    have hxl : x ∈ l := mem_of_mem_sprayGroups hg hxg
    have hxs : x = s := List.inj_on_of_nodup_map hnd hxl hs hxid
    have hgs : g = [s] := group_singleton_of_z_zero hfin hz hg (hxs ▸ hxg)
    rw [hgs]
    simp [mkSprayTarget]

/-- Witness for C6: the z = 0 hotspot exZ sits between exA and exC
(which group together), yet forms a singleton target. -/
theorem distance_sentinel_isolates_witness :
    calculateRealWorldDistance ⟨0, 0, 0⟩ ⟨1, 1, 1⟩ = (fltMax : ℝ)
    ∧ (∃ t ∈ determineSprayTargets [exA, exZ, exC] 10,
        t.sourceHotspotIds = [exZ.id])
    ∧ (∀ t ∈ determineSprayTargets [exA, exZ, exC] 10,
        exZ.id ∈ t.sourceHotspotIds → t.sourceHotspotIds = [exZ.id]) :=
  distance_sentinel_isolates ⟨0, 0, 0⟩ ⟨1, 1, 1⟩ [exA, exZ, exC] 10 exZ
    (Or.inl rfl) (by norm_num [fltMax]) (by decide) rfl (by decide)

end FireRobot
